import Mathlib

/-!
Verification of the rundeckrun client library's response-normalization and
polling subsystem, shallowly embedded in Lean 4.

Source files embedded here:
  - rundeck/util.py        (child2dict, attr2dict, node2dict)
  - rundeck/connection.py  (RundeckResponse.success / .message / .raise_for_error)
  - rundeck/transforms.py  (execution, executions, project, projects, project_resources)
  - rundeck/api.py         (RundeckNode.serialize, api_version_check, executions endpoint)
  - rundeck/client.py      (Rundeck.job_run_and_block)

Modelling conventions:
  - An ElementTree element is an `XNode`: tag, attribute list, text, children.
  - A Python dict with string keys is a `PyDict`: an association list with
    unique keys kept in insertion order; `dictInsert` is `d[k] = v`
    (replace in place if the key exists, append otherwise), `dictOfPairs`
    builds a dict from a pair sequence exactly as a dict comprehension does
    (later pairs overwrite earlier ones), `pyUpdate` is `d.update(items)`.
  - Python exceptions become `Except PyErr` / explicit result constructors.
  - The polling helper's wall clock is abstracted: status fetches are
    instantaneous and `time.sleep(interval)` advances elapsed time by
    `interval`; the loop gets explicit fuel, `RunResult.outOfFuel` standing
    for a run that has not returned within that many iterations.
-/

namespace Rundeck

/-- An ElementTree element: tag name, attributes (unique keys, document
order), optional text content, and the list of direct children. -/
inductive XNode where
  | mk (tag : String) (attrib : List (String × String)) (text : Option String)
      (children : List XNode)

def XNode.tag : XNode → String
  | .mk t _ _ _ => t

def XNode.attrib : XNode → List (String × String)
  | .mk _ a _ _ => a

def XNode.text : XNode → Option String
  | .mk _ _ x _ => x

def XNode.children : XNode → List XNode
  | .mk _ _ _ c => c

/-- `el.find(tag)` of ElementTree: the first direct child with the given tag,
or `None`. -/
def XNode.find (el : XNode) (tag : String) : Option XNode :=
  el.children.find? (fun c => c.tag = tag)

/-- A Python dict with string keys: an association list in insertion order,
with unique keys maintained by `dictInsert`. -/
abbrev PyDict (α : Type) := List (String × α)

/-- `d[k] = v`: if the key is present the binding is replaced in place,
otherwise the new binding is appended. -/
def dictInsert {α : Type} (d : PyDict α) (k : String) (v : α) : PyDict α :=
  if d.any (fun p => p.1 = k) then
    d.map (fun p => if p.1 = k then (k, v) else p)
  else
    d ++ [(k, v)]

/-- `d.update(ps)`: insert every pair of `ps`, in order, into `d`. -/
def pyUpdate {α : Type} (d : PyDict α) (ps : List (String × α)) : PyDict α :=
  ps.foldl (fun acc p => dictInsert acc p.1 p.2) d

/-- Build a dict from a sequence of pairs, as a dict comprehension does:
later pairs with the same key overwrite earlier ones. -/
def dictOfPairs {α : Type} (ps : List (String × α)) : PyDict α :=
  pyUpdate [] ps

/-- Dict lookup: the value bound to `k`, if any (keys built through
`dictInsert` are unique, so the first match is the binding). -/
def dlookup {α : Type} (d : PyDict α) (k : String) : Option α :=
  (d.find? (fun p => p.1 = k)).map (fun p => p.2)

/-- The value the LAST pair with key `k` in a raw pair sequence carries, if
any: the binding a Python dict built from that sequence would hold. -/
def lastBinding {α : Type} : List (String × α) → String → Option α
  | [], _ => none
  | p :: rest, k =>
    match lastBinding rest k with
    | some v => some v
    | none => if p.1 = k then some p.2 else none

/-! ### util.py: the field-extraction helpers -/

/-- `child2dict(el)`: tag-to-text dict over the direct children
(`return (c.tag: c.text for c in el)` as a dict comprehension). -/
def child2dict (el : XNode) : PyDict (Option String) :=
  dictOfPairs (el.children.map (fun c => (c.tag, c.text)))

/-- `attr2dict(el)`: the element's attribute dict
(`return (k: v for k, v in el.items())` as a dict comprehension). -/
def attr2dict (el : XNode) : PyDict String :=
  dictOfPairs el.attrib

/-- `node2dict(el) = dict(list(attr2dict(el).items()) + list(child2dict(el).items()))`:
attribute values are wrapped in `some` since child text is optional. -/
def node2dict (el : XNode) : PyDict (Option String) :=
  dictOfPairs ((attr2dict el).map (fun p => (p.1, some p.2)) ++ child2dict el)

/-! ### Dictionary lemmas -/

theorem dlookup_nil {α : Type} (k : String) : dlookup ([] : PyDict α) k = none := rfl

theorem dlookup_cons {α : Type} (p : String × α) (d : PyDict α) (k : String) :
    dlookup (p :: d) k = if p.1 = k then some p.2 else dlookup d k := by
  by_cases h : p.1 = k
  · simp [dlookup, List.find?_cons_of_pos, h]
  · simp [dlookup, List.find?_cons_of_neg, h]

theorem find_map_replace_of_ne {α : Type} (d : PyDict α) (a k : String) (b : α)
    (hak : a ≠ k) :
    ((d.map (fun p => if p.1 = a then (a, b) else p)).find? (fun p => p.1 = k))
      = d.find? (fun p => p.1 = k) := by
  induction d with
  | nil => rfl
  | cons q rest ih =>
    rw [List.map_cons]
    by_cases hq : q.1 = a
    · rw [if_pos hq]
      rw [List.find?_cons_of_neg _ (by simpa using hak)]
      rw [List.find?_cons_of_neg _ (by simpa using hq ▸ hak)]
      exact ih
    · rw [if_neg hq]
      by_cases hk : q.1 = k
      · rw [List.find?_cons_of_pos _ (by simpa using hk),
          List.find?_cons_of_pos _ (by simpa using hk)]
      · rw [List.find?_cons_of_neg _ (by simpa using hk),
          List.find?_cons_of_neg _ (by simpa using hk)]
        exact ih

theorem find_map_replace_of_any {α : Type} (d : PyDict α) (a : String) (b : α)
    (h : d.any (fun p => p.1 = a) = true) :
    ((d.map (fun p => if p.1 = a then (a, b) else p)).find? (fun p => p.1 = a))
      = some (a, b) := by
  induction d with
  | nil => simp at h
  | cons q rest ih =>
    by_cases hq : q.1 = a
    · rw [List.map_cons, if_pos hq, List.find?_cons_of_pos _ (by simp)]
    · have h' : rest.any (fun p => p.1 = a) = true := by
        simp [List.any_cons, hq] at h
        simpa using h
      rw [List.map_cons, if_neg hq, List.find?_cons_of_neg _ (by simpa using hq)]
      exact ih h'

/-- Lookup after a single dict insertion. -/
theorem dlookup_dictInsert {α : Type} (d : PyDict α) (a : String) (b : α) (k : String) :
    dlookup (dictInsert d a b) k = if a = k then some b else dlookup d k := by
  unfold dictInsert
  by_cases hany : d.any (fun p => p.1 = a) = true
  · rw [if_pos hany]
    by_cases hak : a = k
    · subst hak
      simp [dlookup, find_map_replace_of_any d a b hany]
    · simp [dlookup, find_map_replace_of_ne d a k b hak, if_neg hak]
  · rw [if_neg hany]
    have hnot : d.find? (fun p => p.1 = a) = none := by
      rw [List.find?_eq_none]
      intro p hp
      by_contra hcon
      exact hany (List.any_eq_true.mpr ⟨p, hp, by simpa using hcon⟩)
    by_cases hak : a = k
    · subst hak
      simp [dlookup, List.find?_append, hnot]
    · unfold dlookup
      rw [List.find?_append]
      by_cases hd : (d.find? (fun p => p.1 = k)).isSome
      · obtain ⟨p, hp⟩ := Option.isSome_iff_exists.mp hd
        simp [hp, if_neg hak]
      · have hd' : d.find? (fun p => p.1 = k) = none := by
          cases hfind : d.find? (fun p => p.1 = k)
          · rfl
          · simp [hfind] at hd
        simp [hd', if_neg hak, hak]

/-- Folding dict insertions: the last binding for `k` among the inserted
pairs wins, and if none of them binds `k` the accumulator's binding shows
through. -/
theorem dlookup_foldl_dictInsert {α : Type} (ps : List (String × α)) (acc : PyDict α)
    (k : String) :
    dlookup (ps.foldl (fun d p => dictInsert d p.1 p.2) acc) k
      = match lastBinding ps k with
        | some v => some v
        | none => dlookup acc k := by
  induction ps generalizing acc with
  | nil => rfl
  | cons p rest ih =>
    rw [List.foldl_cons, ih]
    simp only [lastBinding]
    cases hrest : lastBinding rest k with
    | some v => rfl
    | none =>
      rw [dlookup_dictInsert]
      by_cases hpk : p.1 = k
      · simp [hpk]
      · simp [hpk]

/-- Lookup in a dict built from a pair sequence is the last binding. -/
theorem dlookup_dictOfPairs {α : Type} (ps : List (String × α)) (k : String) :
    dlookup (dictOfPairs ps) k = lastBinding ps k := by
  unfold dictOfPairs pyUpdate
  rw [dlookup_foldl_dictInsert]
  cases lastBinding ps k <;> rfl

/-- Lookup after `d.update(ps)`. -/
theorem dlookup_pyUpdate {α : Type} (d : PyDict α) (ps : List (String × α)) (k : String) :
    dlookup (pyUpdate d ps) k
      = match lastBinding ps k with
        | some v => some v
        | none => dlookup d k := by
  unfold pyUpdate
  exact dlookup_foldl_dictInsert ps d k

theorem lastBinding_append {α : Type} (a b : List (String × α)) (k : String) :
    lastBinding (a ++ b) k
      = match lastBinding b k with
        | some v => some v
        | none => lastBinding a k := by
  induction a with
  | nil =>
    rw [List.nil_append]
    cases hb : lastBinding b k <;> simp [lastBinding]
  | cons p rest ih =>
    rw [List.cons_append]
    simp only [lastBinding]
    rw [ih]
    cases lastBinding b k <;> cases lastBinding rest k <;> rfl

theorem lastBinding_map_val {α β : Type} (ps : List (String × α)) (f : α → β) (k : String) :
    lastBinding (ps.map (fun p => (p.1, f p.2))) k = (lastBinding ps k).map f := by
  induction ps with
  | nil => rfl
  | cons p rest ih =>
    rw [List.map_cons]
    simp only [lastBinding]
    rw [ih]
    cases lastBinding rest k with
    | some v => rfl
    | none =>
      by_cases hpk : p.1 = k
      · simp [hpk]
      · simp [hpk]

/-! ### Python exceptions, int() and strptime() -/

/-- Python exception classes the embedded code can raise.  `notFound` never
arises from the embedded code: it is the typed error the specification
hypothesizes for the singular transforms, included so the claim about it can
be stated and compared with what the code actually raises. -/
inductive PyErr where
  | keyError
  | valueError
  | typeError
  | attributeError
  | indexError
  | notFound
deriving DecidableEq

/-- Decimal digits to a natural number. -/
def digitsToNat (cs : List Char) : Nat :=
  cs.foldl (fun a c => 10 * a + (c.toNat - 48)) 0

/-- Python `int(s)` on a decimal string: optional surrounding whitespace,
an optional single sign, then one or more digits; `none` models
`ValueError`. -/
def pyInt (s : String) : Option Int :=
  let trimmed :=
    ((s.toList.dropWhile Char.isWhitespace).reverse.dropWhile Char.isWhitespace).reverse
  match trimmed with
  | [] => none
  | '-' :: ds =>
    if ds.isEmpty then none
    else if ds.all Char.isDigit then some (-(digitsToNat ds : Int)) else none
  | '+' :: ds =>
    if ds.isEmpty then none
    else if ds.all Char.isDigit then some ((digitsToNat ds : Int)) else none
  | ds => if ds.all Char.isDigit then some ((digitsToNat ds : Int)) else none

/-- A parsed `datetime.datetime` value (second precision, as produced by
`datetime.strptime` with format `%Y-%m-%dT%H:%M:%SZ`). -/
structure PyDateTime where
  year : Nat
  month : Nat
  day : Nat
  hour : Nat
  minute : Nat
  second : Nat
deriving DecidableEq

/-- `datetime.strptime(s, '%Y-%m-%dT%H:%M:%SZ')`: strict fixed-width match;
`none` models `ValueError`. -/
def parseDatetime (s : String) : Option PyDateTime :=
  match s.toList with
  | [y1, y2, y3, y4, '-', m1, m2, '-', d1, d2, 'T',
     h1, h2, ':', n1, n2, ':', s1, s2, 'Z'] =>
    if ([y1, y2, y3, y4, m1, m2, d1, d2, h1, h2, n1, n2, s1, s2].all Char.isDigit) then
      let dd := fun (a b : Char) => 10 * (a.toNat - 48) + (b.toNat - 48)
      let yr := 1000 * (y1.toNat - 48) + 100 * (y2.toNat - 48) + 10 * (y3.toNat - 48)
                  + (y4.toNat - 48)
      let mo := dd m1 m2
      let da := dd d1 d2
      let ho := dd h1 h2
      let mi := dd n1 n2
      let se := dd s1 s2
      if 1 ≤ mo && mo ≤ 12 && 1 ≤ da && da ≤ 31 && ho ≤ 23 && mi ≤ 59 && se ≤ 61 then
        some ⟨yr, mo, da, ho, mi, se⟩
      else none
    else none
  | _ => none

/-! ### connection.py: RundeckResponse -/

/-- `RundeckResponse.success`: `'success' in self.etree.attrib` — true iff
the root element carries a `success` attribute (whatever its value); the
surrounding `try/except` can never fire on a parsed tree. -/
def responseSuccess (etree : XNode) : Bool :=
  etree.attrib.any (fun p => p.1 = "success")

/-- `RundeckResponse.message`: pick the term (`success`/`error`) from the
success flag, look up the first child element with that tag; if absent the
term itself is returned, otherwise the text of that element's `message`
child (`message_el.find('message').text`), which raises `AttributeError`
when the `message` child is missing (`None.text`). -/
def responseMessage (etree : XNode) : Except PyErr (Option String) :=
  let term := if responseSuccess etree then "success" else "error"
  match etree.find term with
  | none => Except.ok (some term)
  | some messageEl =>
    match messageEl.find "message" with
    | none => Except.error PyErr.attributeError
    | some m => Except.ok m.text

/-- Outcome of `RundeckResponse.raise_for_error`: a normal return, the
`RundeckServerError(msg, rundeck_response=self)` it raises on a failed
envelope, or a Python exception escaping from the `message` computation. -/
inductive RaiseResult where
  | ok
  | serverError (msg : Option String) (etree : XNode)
  | pyError (e : PyErr)

/-- `RundeckResponse.raise_for_error(msg=None)`: when no message override is
given the envelope's own `message` is computed first (and any exception it
raises escapes); then `RundeckServerError` is raised iff `success` is
false. -/
def raise_for_error (etree : XNode) (msgArg : Option String) : RaiseResult :=
  let msgE : Except PyErr (Option String) :=
    match msgArg with
    | some m => Except.ok (some m)
    | none => responseMessage etree
  match msgE with
  | Except.error e => RaiseResult.pyError e
  | Except.ok msg =>
    if responseSuccess etree then RaiseResult.ok
    else RaiseResult.serverError msg etree

/-! ### transforms.py: the transform registry entries the claims touch -/

/-- A value in a normalized record: raw attribute/child text, a parsed
datetime, or a nested flattened record (the `job` sub-structure). -/
inductive TVal where
  | txt (v : Option String)
  | date (d : PyDateTime)
  | nested (m : PyDict (Option String))
deriving DecidableEq

/-- The `'date-started' in data` fix-up inside the `executions` transform:
replace the field by its parsed datetime when present; `strptime` raises
`ValueError` on a malformed string and `TypeError` when handed a
non-string. -/
def dateFix (d : PyDict TVal) (key : String) : Except PyErr (PyDict TVal) :=
  match dlookup d key with
  | none => Except.ok d
  | some (TVal.txt (some s)) =>
    match parseDatetime s with
    | some dt => Except.ok (dictInsert d key (TVal.date dt))
    | none => Except.error PyErr.valueError
  | some (TVal.txt none) => Except.error PyErr.typeError
  | some (TVal.date _) => Except.error PyErr.typeError
  | some (TVal.nested _) => Except.error PyErr.typeError

/-- The per-item `xform(el)` inside the `executions` transform:
`data = child2dict(el); data.update(attr2dict(el))` (so attribute values
overwrite same-named child text), then the `job` child is flattened with
`node2dict` and stored under `'job'` (the subsequent `el.remove(job_el)`
mutates only the tree, after `data` has been built, and cannot affect the
returned record), then the two date fields are parsed in place. -/
def xformExecution (el : XNode) : Except PyErr (PyDict TVal) :=
  let childD : PyDict TVal :=
    dictOfPairs (el.children.map (fun c => (c.tag, TVal.txt c.text)))
  let data0 : PyDict TVal :=
    pyUpdate childD (el.attrib.map (fun p => (p.1, TVal.txt (some p.2))))
  let data1 : PyDict TVal :=
    match el.find "job" with
    | some jobEl => dictInsert data0 "job" (TVal.nested (node2dict jobEl))
    | none => data0
  match dateFix data1 "date-started" with
  | Except.error e => Except.error e
  | Except.ok data2 => dateFix data2 "date-ended"

/-- The `executions` transform: locate the `executions` container
(`resp.etree.find('executions')`; a missing container makes
`base.attrib['count']` blow up with `AttributeError` on `None`), read the
`count` attribute (`KeyError` if absent, `ValueError` if unparsable), and
either map `xform` over the `execution` children (`iterfind`) or return the
empty list when the count is not positive. -/
def executionsTransform (etree : XNode) : Except PyErr (List (PyDict TVal)) :=
  match etree.find "executions" with
  | none => Except.error PyErr.attributeError
  | some base =>
    match dlookup (attr2dict base) "count" with
    | none => Except.error PyErr.keyError
    | some countS =>
      match pyInt countS with
      | none => Except.error PyErr.valueError
      | some cnt =>
        if cnt > 0 then
          (base.children.filter (fun c => c.tag = "execution")).mapM xformExecution
        else
          Except.ok []

/-- The `execution` (singular) transform: `executions(resp)[0]` — indexing
an empty list raises `IndexError`. -/
def executionTransform (etree : XNode) : Except PyErr (PyDict TVal) :=
  match executionsTransform etree with
  | Except.error e => Except.error e
  | Except.ok [] => Except.error PyErr.indexError
  | Except.ok (x :: _) => Except.ok x

/-- `list.remove` of the first child carrying the given tag (the element
removed in the source was obtained via `find`, so it is precisely the first
child with that tag). -/
def removeFirstByTag : List XNode → String → List XNode
  | [], _ => []
  | c :: cs, t => if c.tag = t then cs else c :: removeFirstByTag cs t

/-- The per-item body of the `projects` transform: the `resources` child is
extracted (`child2dict`) and detached first — but only when the element is
truthy, i.e. has at least one child, per ElementTree's `if resources_el:` —
then the project element's own child text is flattened on top. -/
def xformProject (projectEl : XNode) : PyDict TVal :=
  let staged : PyDict TVal × XNode :=
    match projectEl.find "resources" with
    | some r =>
      if r.children.isEmpty then ([], projectEl)
      else
        ([("resources", TVal.nested (child2dict r))],
          XNode.mk projectEl.tag projectEl.attrib projectEl.text
            (removeFirstByTag projectEl.children "resources"))
    | none => ([], projectEl)
  pyUpdate staged.1 (staged.2.children.map (fun c => (c.tag, TVal.txt c.text)))

/-- The `projects` transform: same container/count discipline as
`executions`, over `project` children. -/
def projectsTransform (etree : XNode) : Except PyErr (List (PyDict TVal)) :=
  match etree.find "projects" with
  | none => Except.error PyErr.attributeError
  | some base =>
    match dlookup (attr2dict base) "count" with
    | none => Except.error PyErr.keyError
    | some countS =>
      match pyInt countS with
      | none => Except.error PyErr.valueError
      | some cnt =>
        if cnt > 0 then
          Except.ok ((base.children.filter (fun c => c.tag = "project")).map xformProject)
        else
          Except.ok []

/-- The `project` (singular) transform: `projects(resp)[0]`. -/
def projectTransform (etree : XNode) : Except PyErr (PyDict TVal) :=
  match projectsTransform etree with
  | Except.error e => Except.error e
  | Except.ok [] => Except.error PyErr.indexError
  | Except.ok (x :: _) => Except.ok x

/-- The `project_resources` transform: for every direct child of the root,
take its attribute dict and key it by its `name` attribute
(`nodes[node_attr['name']] = node_attr`; `KeyError` if a node has no
`name`). -/
def projectResourcesTransform (etree : XNode) : Except PyErr (PyDict (PyDict String)) :=
  etree.children.foldlM
    (fun nodes nodeEl =>
      let na := attr2dict nodeEl
      match dlookup na "name" with
      | none => Except.error PyErr.keyError
      | some nm => Except.ok (dictInsert nodes nm na))
    []

/-! ### api.py: RundeckNode and the pre-flight version check -/

/-- `RundeckNode`: the node-resource value object (`name`, `hostname`,
`username` required; the remaining declared fields optional; `attributes`
is the custom name/value mapping emitted as `<attribute>` children). -/
structure RundeckNode where
  name : String
  hostname : String
  username : String
  description : Option String
  osArch : Option String
  osFamily : Option String
  osName : Option String
  tags : Option (List String)
  editUrl : Option String
  remoteUrl : Option String
  attributes : Option (PyDict String)
deriving DecidableEq

/-- One optional entry of the `data` comprehension in
`RundeckNode.serialize` (a key is emitted iff its field is not `None`). -/
def optEntry (k : String) (v : Option String) : PyDict String :=
  match v with
  | some s => [(k, s)]
  | none => []

/-- The `tags` entry appended to `data`: a tag list is joined with commas. -/
def tagsEntry : Option (List String) → PyDict String
  | some ts => [("tags", String.intercalate "," ts)]
  | none => []

/-- The `data` dict built by `RundeckNode.serialize`: the declared,
non-`None` fields in `node_attr_keys` order, then the `tags` entry. -/
def RundeckNode.dataDict (n : RundeckNode) : PyDict String :=
  [("name", n.name), ("hostname", n.hostname), ("username", n.username)]
    ++ optEntry "description" n.description
    ++ optEntry "osArch" n.osArch
    ++ optEntry "osFamily" n.osFamily
    ++ optEntry "osName" n.osName
    ++ optEntry "editUrl" n.editUrl
    ++ optEntry "remoteUrl" n.remoteUrl
    ++ tagsEntry n.tags

/-- The `<attribute name=... value=.../>` children emitted for the custom
attribute mapping. -/
def attributeChildren : Option (PyDict String) → List XNode
  | some attrs => attrs.map (fun p => XNode.mk "attribute" [("name", p.1), ("value", p.2)] none [])
  | none => []

/-- The XML fragment denoted by the string `RundeckNode.serialize` returns:
`<node k1=v1 ...>` with one `<attribute>` child per custom attribute
(`quoteattr` makes the attribute serialization faithful for the string
values carried here). -/
def RundeckNode.serializeEl (n : RundeckNode) : XNode :=
  XNode.mk "node" n.dataDict none (attributeChildren n.attributes)

/-- `api_version_check(api_version, required_version)`: the
`NotImplementedError` message raised when the configured version is too
low, `none` when the check passes. -/
def api_version_check (api_version required_version : Nat) : Option String :=
  if api_version < required_version then
    some ("Call requires API version " ++ toString required_version ++ " or higher")
  else none

/-- An observable effect of an endpoint method; the single HTTP exchange
which `self._exec(...)` performs is the only effect modelled. -/
inductive HttpEffect where
  | request (method : String) (url : String)
deriving DecidableEq

/-- `RundeckApiTolerant.executions(...)`: `self.requires_version(5)` runs
first; only if it passes does `self._exec(GET, 'executions', ...)` issue
the HTTP request.  The result is the list of HTTP effects issued paired
with the raised error, if any. -/
def executionsEndpoint (api_version : Nat) : List HttpEffect × Option String :=
  match api_version_check api_version 5 with
  | some err => ([], some err)
  | none => ([HttpEffect.request "get" "executions"], none)

/-! ### client.py: the blocking run helper -/

/-- `_EXECUTION_COMPLETED = (Status.FAILED, Status.SUCCEEDED, Status.ABORTED)`. -/
def EXECUTION_COMPLETED : List String := ["failed", "succeeded", "aborted"]

/-- One fetched execution as seen by `job_run_and_block`:
`status = none` models the fetch whose `execution.as_dict['status']`
access raises `AttributeError` (the transform finds no `executions`
container in the transient response); `eid` distinguishes records. -/
structure ExecRecord where
  status : Option String
  eid : Nat
deriving DecidableEq

/-- Does the record carry a terminal status? -/
def recCompleted (e : ExecRecord) : Bool :=
  match e.status with
  | some st => decide (st ∈ EXECUTION_COMPLETED)
  | none => false

/-- What a finished `job_run_and_block` run returns, instrumented with the
number of status fetches and sleeps performed and the final value of the
`duration` variable. -/
structure RunOutcome where
  execution : ExecRecord
  fetches : Nat
  sleeps : Nat
  duration : Nat
deriving DecidableEq

/-- Result of running the polling loop with a given amount of fuel:
`outOfFuel` stands for a run that has not returned within that many
iterations (the loop has no other exit), and `unboundLocal` for the
`exec_status` name being read before any assignment (unreachable from the
helper's entry state). -/
inductive RunResult where
  | done (o : RunOutcome)
  | unboundLocal
  | outOfFuel
deriving DecidableEq

/-- The `while (duration < timeout)` loop of `Rundeck.job_run_and_block`,
one constructor-recursive step per iteration.  Each iteration fetches
`polls fetches`; on a missing-status anomaly the `except AttributeError`
handler issues `continue` while `duration == 0` (fetch again at once: no
sleep, no duration update) and otherwise falls through with the exception
swallowed, so the stale `exec_status` from the previous iteration is
tested; a terminal status breaks out and the current `execution` is
returned.  `time.sleep(interval)` advances `duration` by `interval`
(fetches are instantaneous in this time model). -/
def pollLoop (polls : Nat → ExecRecord) (timeout interval : Nat) :
    Nat → ExecRecord → Option String → Nat → Nat → Nat → RunResult
  | 0, _, _, _, _, _ => RunResult.outOfFuel
  | fuel + 1, execution, execStatus, duration, fetches, sleeps =>
    if duration < timeout then
      let e := polls fetches
      match e.status with
      | some st =>
        if st ∈ EXECUTION_COMPLETED then
          RunResult.done ⟨e, fetches + 1, sleeps, duration⟩
        else
          pollLoop polls timeout interval fuel e (some st)
            (duration + interval) (fetches + 1) (sleeps + 1)
      | none =>
        if duration = 0 then
          pollLoop polls timeout interval fuel e execStatus duration (fetches + 1) sleeps
        else
          match execStatus with
          | none => RunResult.unboundLocal
          | some st =>
            if st ∈ EXECUTION_COMPLETED then
              RunResult.done ⟨e, fetches + 1, sleeps, duration⟩
            else
              pollLoop polls timeout interval fuel e execStatus
                (duration + interval) (fetches + 1) (sleeps + 1)
    else
      RunResult.done ⟨execution, fetches, sleeps, duration⟩

/-- `Rundeck.job_run_and_block(job_id, timeout=..., interval=...)` after the
initial `job_run` produced `initial`: enter the polling loop with
`duration = 0`, no fetches, no sleeps and `exec_status` unbound. -/
def job_run_and_block (initial : ExecRecord) (polls : Nat → ExecRecord)
    (timeout interval fuel : Nat) : RunResult :=
  pollLoop polls timeout interval fuel initial none 0 0 0

/-! ### Polling loop lemmas -/

/-- A fetch observing a terminal status returns that execution at once:
no further sleep, no duration update. -/
theorem pollLoop_terminal_step (polls : Nat → ExecRecord) (t i fuel : Nat)
    (ex : ExecRecord) (es : Option String) (dur f s : Nat) (st : String)
    (hlt : dur < t) (hst : (polls f).status = some st)
    (hmem : st ∈ EXECUTION_COMPLETED) :
    pollLoop polls t i (fuel + 1) ex es dur f s
      = RunResult.done ⟨polls f, f + 1, s, dur⟩ := by
  simp only [pollLoop, hst, if_pos hlt, if_pos hmem]

/-- Whenever the loop returns, the returned execution is the most recent
fetch (or, with zero fetches, the caller-supplied one), and if it returns
because the time budget is spent the returned execution is not in a
terminal state. -/
theorem pollLoop_done_lastFetched (polls : Nat → ExecRecord) (t i : Nat) :
    ∀ (fuel : Nat) (ex : ExecRecord) (es : Option String) (dur f s : Nat) (o : RunOutcome),
      (f ≠ 0 → ex = polls (f - 1) ∧ recCompleted ex = false) →
      pollLoop polls t i fuel ex es dur f s = RunResult.done o →
      (o.fetches ≠ 0 →
        o.execution = polls (o.fetches - 1) ∧
          (t ≤ o.duration → recCompleted o.execution = false)) := by
  intro fuel
  induction fuel with
  | zero =>
    intro ex es dur f s o hpre hrun
    simp [pollLoop] at hrun
  | succ fuel ih =>
    intro ex es dur f s o hpre hrun
    rw [pollLoop] at hrun
    by_cases hlt : dur < t
    · rw [if_pos hlt] at hrun
      cases hst : (polls f).status with
      | some st =>
        simp only [hst] at hrun
        by_cases hmem : st ∈ EXECUTION_COMPLETED
        · rw [if_pos hmem] at hrun
          cases hrun
          intro hf
          constructor
          · simp
          · intro habs
            exact absurd hlt (by simpa using habs)
        · rw [if_neg hmem] at hrun
          exact ih (polls f) (some st) (dur + i) (f + 1) (s + 1) o
            (fun _ => ⟨by simp, by simp [recCompleted, hst, hmem]⟩) hrun
      | none =>
        simp only [hst] at hrun
        by_cases hz : dur = 0
        · rw [if_pos hz] at hrun
          exact ih (polls f) es dur (f + 1) s o
            (fun _ => ⟨by simp, by simp [recCompleted, hst]⟩) hrun
        · rw [if_neg hz] at hrun
          cases hes : es with
          | none => simp [hes] at hrun
          | some st =>
            simp only [hes] at hrun
            by_cases hmem : st ∈ EXECUTION_COMPLETED
            · rw [if_pos hmem] at hrun
              cases hrun
              intro hf
              constructor
              · simp
              · intro habs
                exact absurd hlt (by simpa using habs)
            · rw [if_neg hmem] at hrun
              exact ih (polls f) (some st) (dur + i) (f + 1) (s + 1) o
                (fun _ => ⟨by simp, by simp [recCompleted, hst]⟩) hrun
    · rw [if_neg hlt] at hrun
      cases hrun
      intro hf
      exact ⟨(hpre hf).1, fun _ => (hpre hf).2⟩

/-- Whenever the loop started from a non-terminal (or unbound) stale status
returns, it does so either because the time budget was spent or because the
returned execution carries a terminal status. -/
theorem pollLoop_done_exit_kinds (polls : Nat → ExecRecord) (t i : Nat) :
    ∀ (fuel : Nat) (ex : ExecRecord) (es : Option String) (dur f s : Nat) (o : RunOutcome),
      (∀ st, es = some st → st ∉ EXECUTION_COMPLETED) →
      pollLoop polls t i fuel ex es dur f s = RunResult.done o →
      t ≤ o.duration ∨ recCompleted o.execution = true := by
  intro fuel
  induction fuel with
  | zero =>
    intro ex es dur f s o hinv hrun
    simp [pollLoop] at hrun
  | succ fuel ih =>
    intro ex es dur f s o hinv hrun
    rw [pollLoop] at hrun
    by_cases hlt : dur < t
    · rw [if_pos hlt] at hrun
      cases hst : (polls f).status with
      | some st =>
        simp only [hst] at hrun
        by_cases hmem : st ∈ EXECUTION_COMPLETED
        · rw [if_pos hmem] at hrun
          cases hrun
          right
          simp [recCompleted, hst, hmem]
        · rw [if_neg hmem] at hrun
          exact ih (polls f) (some st) (dur + i) (f + 1) (s + 1) o
            (fun st' h => by cases h; exact hmem) hrun
      | none =>
        simp only [hst] at hrun
        by_cases hz : dur = 0
        · rw [if_pos hz] at hrun
          exact ih (polls f) es dur (f + 1) s o hinv hrun
        · rw [if_neg hz] at hrun
          cases hes : es with
          | none => simp [hes] at hrun
          | some st =>
            simp only [hes] at hrun
            rw [if_neg (hinv st hes)] at hrun
            exact ih (polls f) (some st) (dur + i) (f + 1) (s + 1) o
              (fun st' h => by cases h; exact hinv st hes) hrun
    · rw [if_neg hlt] at hrun
      cases hrun
      left
      exact Nat.le_of_not_lt hlt

/-! ### Concrete polling fixtures -/

/-- A poll trace whose very first fetch is the missing-status anomaly and
whose second fetch reports success. -/
def pollsAnomalyFirst : Nat → ExecRecord := fun n =>
  if n = 0 then ⟨none, 0⟩ else ⟨some "succeeded", n⟩

/-- A poll trace that reports `running`, then the missing-status anomaly
(at elapsed time greater than zero), then success. -/
def pollsAnomalyLater : Nat → ExecRecord := fun n =>
  if n = 0 then ⟨some "running", 0⟩
  else if n = 1 then ⟨none, 1⟩
  else ⟨some "succeeded", n⟩

/-- A poll trace reporting `running` twice and then `failed`. -/
def pollsSteady : Nat → ExecRecord := fun n =>
  if n < 2 then ⟨some "running", n⟩ else ⟨some "failed", n⟩

/-- The execution record returned by the initial `job_run`. -/
def initialExec : ExecRecord := ⟨some "running", 99⟩

/-! ### Claim C1 -/

/-- C1 counterexample.  The claim says a missing-status anomaly on the very
first poll makes the helper sleep for the poll interval before retrying,
and that an anomaly at elapsed time greater than zero propagates to the
caller as a failure.  Both parts fail on the code.  First conjunct: with
the anomaly on the first fetch the run finishes with `sleeps = 0` — the
`continue` in the `except AttributeError` handler retries at once, without
sleeping.  Second conjunct: with the anomaly on the second fetch (elapsed
time 3 > 0) the run still returns normally — the handler catches the
exception and falls through to test the stale previous status, so nothing
propagates. -/
theorem C1_counterexample :
    job_run_and_block initialExec pollsAnomalyFirst 10 3 5
      = RunResult.done ⟨⟨some "succeeded", 1⟩, 2, 0, 0⟩
    ∧ job_run_and_block initialExec pollsAnomalyLater 10 3 9
      = RunResult.done ⟨⟨some "succeeded", 2⟩, 3, 2, 6⟩ := by
  constructor
  · rfl
  · rfl

/-- C1 (amended): a missing-status anomaly while `duration == 0` makes the
helper fetch again immediately — same duration, same sleep count, no
propagation; a missing-status anomaly at `duration > 0` is caught too: the
stale previously-fetched status is tested and, being non-terminal, the
helper sleeps and keeps polling, so the anomaly never propagates to the
caller. -/
theorem C1_anomaly_handling (polls : Nat → ExecRecord) (t i fuel : Nat)
    (ex : ExecRecord) (es : Option String) (f s : Nat) :
    ((polls f).status = none → 0 < t →
      pollLoop polls t i (fuel + 1) ex es 0 f s
        = pollLoop polls t i fuel (polls f) es 0 (f + 1) s)
    ∧ (∀ dur st, (polls f).status = none → dur ≠ 0 → dur < t → es = some st →
        st ∉ EXECUTION_COMPLETED →
        pollLoop polls t i (fuel + 1) ex es dur f s
          = pollLoop polls t i fuel (polls f) es (dur + i) (f + 1) (s + 1)) := by
  constructor
  · intro hst ht
    simp [pollLoop, hst, ht]
  · intro dur st hst hz hlt hes hmem
    simp only [pollLoop, hst, if_pos hlt, if_neg hz, hes, if_neg hmem]

/-- C1 witness: the amended behavior at the concrete anomalous traces — the
first-poll anomaly retries at once keeping duration 0 and sleep count 0,
and the later anomaly is swallowed, the loop continuing with the stale
`running` status. -/
theorem C1_witness :
    pollLoop pollsAnomalyFirst 10 3 5 initialExec none 0 0 0
      = pollLoop pollsAnomalyFirst 10 3 4 (pollsAnomalyFirst 0) none 0 1 0
    ∧ pollLoop pollsAnomalyLater 10 3 7 (pollsAnomalyLater 0) (some "running") 3 1 1
      = pollLoop pollsAnomalyLater 10 3 6 (pollsAnomalyLater 1) (some "running") 6 2 2 := by
  constructor
  · exact (C1_anomaly_handling pollsAnomalyFirst 10 3 4 initialExec none 0 0).1
      (by rfl) (by decide)
  · exact (C1_anomaly_handling pollsAnomalyLater 10 3 6 (pollsAnomalyLater 0)
      (some "running") 1 1).2 3 "running" (by rfl) (by decide) (by decide) rfl (by decide)

/-! ### Claim C2 -/

/-- C2: the exits of `job_run_and_block`.  (1) With `timeout = 0` the loop
body never runs: the initial execution is returned with no status fetch and
no sleep.  (2) A poll observing a terminal status returns that execution
immediately.  (3) Any normal return happens either with the time budget
spent or with a terminal execution — terminal observation is the only early
exit.  (4) Whatever is returned after at least one fetch is the
last-fetched execution, and at a timeout exit it is non-terminal. -/
theorem C2_run_and_block_exits (initial : ExecRecord) (polls : Nat → ExecRecord)
    (timeout interval fuel : Nat) :
    (timeout = 0 →
      job_run_and_block initial polls timeout interval (fuel + 1)
        = RunResult.done ⟨initial, 0, 0, 0⟩)
    ∧ (∀ ex es dur f s st, dur < timeout → (polls f).status = some st →
        st ∈ EXECUTION_COMPLETED →
        pollLoop polls timeout interval (fuel + 1) ex es dur f s
          = RunResult.done ⟨polls f, f + 1, s, dur⟩)
    ∧ (∀ o, job_run_and_block initial polls timeout interval fuel = RunResult.done o →
        timeout ≤ o.duration ∨ recCompleted o.execution = true)
    ∧ (∀ o, job_run_and_block initial polls timeout interval fuel = RunResult.done o →
        o.fetches ≠ 0 →
        o.execution = polls (o.fetches - 1)
          ∧ (timeout ≤ o.duration → recCompleted o.execution = false)) := by
  refine ⟨?_, ?_, ?_, ?_⟩
  · intro h0
    subst h0
    simp [job_run_and_block, pollLoop]
  · intro ex es dur f s st hlt hst hmem
    exact pollLoop_terminal_step polls timeout interval fuel ex es dur f s st hlt hst hmem
  · intro o hrun
    exact pollLoop_done_exit_kinds polls timeout interval fuel initial none 0 0 0 o
      (fun st h => by cases h) hrun
  · intro o hrun hf
    exact pollLoop_done_lastFetched polls timeout interval fuel initial none 0 0 0 o
      (fun h => absurd rfl h) hrun hf

/-- C2 witness: concrete instantiations — a zero timeout returns the
initial execution untouched; with the steady trace the terminal `failed`
status on the third fetch is returned at once (3 fetches, 2 sleeps,
duration 6 of the 10-second budget). -/
theorem C2_witness :
    job_run_and_block initialExec pollsSteady 0 3 1 = RunResult.done ⟨initialExec, 0, 0, 0⟩
    ∧ pollLoop pollsSteady 10 3 1 (pollsSteady 1) (some "running") 6 2 2
      = RunResult.done ⟨pollsSteady 2, 3, 2, 6⟩
    ∧ (10 ≤ (6 : Nat) ∨ recCompleted (ExecRecord.mk (some "failed") 2) = true) := by
  refine ⟨?_, ?_, ?_⟩
  · exact (C2_run_and_block_exits initialExec pollsSteady 0 3 0).1 rfl
  · exact (C2_run_and_block_exits initialExec pollsSteady 10 3 0).2.1
      (pollsSteady 1) (some "running") 6 2 2 "failed" (by decide) (by rfl) (by decide)
  · exact (C2_run_and_block_exits initialExec pollsSteady 10 3 9).2.2.1
      ⟨ExecRecord.mk (some "failed") 2, 3, 2, 6⟩ (by rfl)

/-! ### Claim C3 -/

/-- An envelope whose `executions` container reports zero executions. -/
def emptyExecutionsEnvelope : XNode :=
  XNode.mk "result" [] none [XNode.mk "executions" [("count", "0")] none []]

/-- An envelope whose `projects` container reports zero projects. -/
def emptyProjectsEnvelope : XNode :=
  XNode.mk "result" [] none [XNode.mk "projects" [("count", "0")] none []]

/-- C3 counterexample.  The claim says the singular transforms fail with a
NotFound error on an empty collection; on an envelope whose plural
transform yields the empty sequence they fail with `IndexError` (a bare
`[0]` on the empty list), not NotFound. -/
theorem C3_counterexample :
    executionsTransform emptyExecutionsEnvelope = Except.ok []
    ∧ executionTransform emptyExecutionsEnvelope = Except.error PyErr.indexError
    ∧ projectTransform emptyProjectsEnvelope = Except.error PyErr.indexError
    ∧ PyErr.indexError ≠ PyErr.notFound := by
  exact ⟨rfl, rfl, rfl, by decide⟩

/-- C3 (amended): the singular transforms return exactly the first element
of the corresponding plural transform's sequence, and when that sequence is
empty they fail with an index-out-of-range `IndexError` (not a typed
NotFound error). -/
theorem C3_singular_transforms (etree : XNode) :
    (∀ x xs, executionsTransform etree = Except.ok (x :: xs) →
      executionTransform etree = Except.ok x)
    ∧ (executionsTransform etree = Except.ok [] →
      executionTransform etree = Except.error PyErr.indexError)
    ∧ (∀ x xs, projectsTransform etree = Except.ok (x :: xs) →
      projectTransform etree = Except.ok x)
    ∧ (projectsTransform etree = Except.ok [] →
      projectTransform etree = Except.error PyErr.indexError) := by
  refine ⟨?_, ?_, ?_, ?_⟩
  · intro x xs h
    unfold executionTransform
    rw [h]
  · intro h
    unfold executionTransform
    rw [h]
  · intro x xs h
    unfold projectTransform
    rw [h]
  · intro h
    unfold projectTransform
    rw [h]

/-- C3 witness: on the concrete empty-executions envelope the plural
transform yields `[]` and the singular transform accordingly raises
`IndexError`; on a one-project envelope the singular transform returns the
first (only) record. -/
theorem C3_witness :
    executionTransform emptyExecutionsEnvelope = Except.error PyErr.indexError
    ∧ projectTransform (XNode.mk "result" [] none
        [XNode.mk "projects" [("count", "1")] none
          [XNode.mk "project" [] none [XNode.mk "name" [] (some "TestProject") []]]])
      = Except.ok [("name", TVal.txt (some "TestProject"))] := by
  constructor
  · exact (C3_singular_transforms emptyExecutionsEnvelope).2.1 (by rfl)
  · exact (C3_singular_transforms _).2.2.1 [("name", TVal.txt (some "TestProject"))] [] (by rfl)

/-! ### Claim C4 -/

/-- C4: an envelope carrying the success marker (the `success` attribute on
the root together with a `success` element holding a `message` child) has
`success = true` and its message is that child's text; an envelope carrying
the error marker instead (no `success` attribute, an `error` element with a
`message` child) has `success = false` and its message is the error
marker's text. -/
theorem C4_success_and_message (etree : XNode) :
    (∀ v s m txt, ("success", v) ∈ etree.attrib →
        etree.find "success" = some s → s.find "message" = some m → m.text = some txt →
        responseSuccess etree = true ∧ responseMessage etree = Except.ok (some txt))
    ∧ (∀ e m txt, (∀ v, ("success", v) ∉ etree.attrib) →
        etree.find "error" = some e → e.find "message" = some m → m.text = some txt →
        responseSuccess etree = false ∧ responseMessage etree = Except.ok (some txt)) := by
  constructor
  · intro v s m txt hv hfind hm htxt
    have hflag : responseSuccess etree = true := by
      unfold responseSuccess
      rw [List.any_eq_true]
      exact ⟨("success", v), hv, by simp⟩
    refine ⟨hflag, ?_⟩
    simp [responseMessage, hflag, hfind, hm, htxt]
  · intro e m txt hno hfind hm htxt
    have hflag : responseSuccess etree = false := by
      unfold responseSuccess
      rw [List.any_eq_false]
      intro p hp
      simp only [decide_eq_true_eq]
      intro hpk
      have hpe : ("success", p.2) = p := by
        rw [← hpk]
      exact hno p.2 (hpe ▸ hp)
    refine ⟨hflag, ?_⟩
    simp [responseMessage, hflag, hfind, hm, htxt]

/-- A well-formed success envelope fixture. -/
def envOk : XNode :=
  XNode.mk "result" [("success", "true"), ("apiversion", "9")] none
    [XNode.mk "success" [] none [XNode.mk "message" [] (some "ok") []]]

/-- A well-formed error envelope fixture. -/
def envErr : XNode :=
  XNode.mk "result" [("error", "true"), ("apiversion", "9")] none
    [XNode.mk "error" [] none [XNode.mk "message" [] (some "bad") []]]

/-- C4 witness: the success fixture evaluates to a true flag and the
`ok` message; the error fixture to a false flag and the `bad` message. -/
theorem C4_witness :
    (responseSuccess envOk = true ∧ responseMessage envOk = Except.ok (some "ok"))
    ∧ (responseSuccess envErr = false ∧ responseMessage envErr = Except.ok (some "bad")) := by
  constructor
  · exact (C4_success_and_message envOk).1 "true"
      (XNode.mk "success" [] none [XNode.mk "message" [] (some "ok") []])
      (XNode.mk "message" [] (some "ok") []) "ok" (by decide) rfl rfl rfl
  · exact (C4_success_and_message envErr).2
      (XNode.mk "error" [] none [XNode.mk "message" [] (some "bad") []])
      (XNode.mk "message" [] (some "bad") []) "bad"
      (by intro v h; simp [envErr, XNode.attrib] at h) rfl rfl rfl

/-! ### Claim C5 -/

/-- C5: an `executions` envelope whose container carries `count="0"` makes
the transform return the empty sequence without failing, regardless of what
children the container has. -/
theorem C5_executions_count_zero (etree base : XNode)
    (hfind : etree.find "executions" = some base)
    (hcount : dlookup (attr2dict base) "count" = some "0") :
    executionsTransform etree = Except.ok [] := by
  have hz : pyInt "0" = some 0 := rfl
  simp [executionsTransform, hfind, hcount, hz]

/-- C5 witness: the concrete childless `count="0"` envelope yields the
empty sequence. -/
theorem C5_witness : executionsTransform emptyExecutionsEnvelope = Except.ok [] := by
  exact C5_executions_count_zero emptyExecutionsEnvelope
    (XNode.mk "executions" [("count", "0")] none []) rfl rfl

/-! ### Claim C6 -/

/-- An envelope whose error marker lacks its `message` child. -/
def envNoMessage : XNode :=
  XNode.mk "result" [] none [XNode.mk "error" [] none []]

/-- C6 counterexample.  The claim quantifies over every envelope, but
`raise_for_error` computes the envelope's `message` first; on an envelope
whose error marker has no `message` child that computation raises
`AttributeError` (`None.text`), so a failed envelope does not raise the
claimed `RundeckServerError` here. -/
theorem C6_counterexample :
    responseSuccess envNoMessage = false
    ∧ raise_for_error envNoMessage none = RaiseResult.pyError PyErr.attributeError
    ∧ (match raise_for_error envNoMessage none with
        | RaiseResult.serverError _ _ => False
        | _ => True) := by
  exact ⟨rfl, rfl, trivial⟩

/-- C6 (amended): for every envelope whose `message` computation succeeds,
`raise_for_error` raises `RundeckServerError` carrying that message and the
envelope itself exactly when the success flag is false, and is a no-op
returning nothing when the flag is true. -/
theorem C6_raise_for_error (etree : XNode) (m : Option String)
    (hmsg : responseMessage etree = Except.ok m) :
    (responseSuccess etree = true → raise_for_error etree none = RaiseResult.ok)
    ∧ (responseSuccess etree = false →
        raise_for_error etree none = RaiseResult.serverError m etree)
    ∧ (raise_for_error etree none = RaiseResult.serverError m etree →
        responseSuccess etree = false) := by
  refine ⟨?_, ?_, ?_⟩
  · intro hflag
    simp [raise_for_error, hmsg, hflag]
  · intro hflag
    simp [raise_for_error, hmsg, hflag]
  · intro h
    cases hflag : responseSuccess etree
    · rfl
    · simp [raise_for_error, hmsg, hflag] at h

/-- C6 witness: the success fixture makes `raise_for_error` a no-op; the
error fixture makes it raise `RundeckServerError` with the envelope's
message and the envelope. -/
theorem C6_witness :
    raise_for_error envOk none = RaiseResult.ok
    ∧ raise_for_error envErr none = RaiseResult.serverError (some "bad") envErr := by
  constructor
  · exact (C6_raise_for_error envOk (some "ok") rfl).1 rfl
  · exact (C6_raise_for_error envErr (some "bad") rfl).2.1 rfl

/-! ### More dictionary lemmas: unique keys -/

/-- Inserting pairs whose keys are fresh and mutually distinct is plain
appending. -/
theorem foldl_dictInsert_eq_append {α : Type} (ps : List (String × α)) :
    ∀ acc : PyDict α, (acc.map Prod.fst ++ ps.map Prod.fst).Nodup →
      ps.foldl (fun d p => dictInsert d p.1 p.2) acc = acc ++ ps := by
  induction ps with
  | nil =>
    intro acc h
    simp
  | cons p rest ih =>
    intro acc h
    have hmem : p.1 ∉ acc.map Prod.fst := by
      intro hin
      exact (List.nodup_append.mp h).2.2 hin (by simp)
    have hins : dictInsert acc p.1 p.2 = acc ++ [p] := by
      unfold dictInsert
      rw [if_neg]
      intro hany
      obtain ⟨q, hq, hqk⟩ := List.any_eq_true.mp hany
      exact hmem (by
        have : q.1 = p.1 := by simpa using hqk
        exact this ▸ List.mem_map_of_mem Prod.fst hq)
    rw [List.foldl_cons, hins, ih (acc ++ [p]) (by
      simp only [List.map_append, List.map_cons, List.map_nil]
      simpa [List.append_assoc] using h)]
    simp

/-- A pair list with pairwise-distinct keys is already the dict it builds. -/
theorem dictOfPairs_eq_self {α : Type} (d : PyDict α) (h : (d.map Prod.fst).Nodup) :
    dictOfPairs d = d := by
  unfold dictOfPairs pyUpdate
  rw [foldl_dictInsert_eq_append d [] (by simpa using h)]
  simp

/-- A key `lastBinding` finds occurs among the pair list's keys. -/
theorem mem_of_lastBinding_isSome {α : Type} (d : List (String × α)) (k : String)
    (h : lastBinding d k ≠ none) : k ∈ d.map Prod.fst := by
  induction d with
  | nil => exact absurd rfl h
  | cons p rest ih =>
    simp only [lastBinding] at h
    cases hrest : lastBinding rest k with
    | some w =>
      exact List.mem_cons_of_mem _ (ih (by rw [hrest]; simp))
    | none =>
      rw [hrest] at h
      by_cases hpk : p.1 = k
      · rw [← hpk]
        exact List.mem_cons_self _ _
      · rw [if_neg hpk] at h
        exact absurd rfl h

/-- On a dict with pairwise-distinct keys, first-match lookup and
last-binding lookup agree. -/
theorem lastBinding_eq_dlookup {α : Type} (d : PyDict α) (k : String)
    (h : (d.map Prod.fst).Nodup) : lastBinding d k = dlookup d k := by
  induction d with
  | nil => rfl
  | cons p rest ih =>
    have h' : (p.1 :: rest.map Prod.fst).Nodup := by simpa using h
    have hnd1 : p.1 ∉ rest.map Prod.fst := (List.nodup_cons.mp h').1
    have hnd2 : (rest.map Prod.fst).Nodup := (List.nodup_cons.mp h').2
    rw [dlookup_cons]
    simp only [lastBinding]
    cases hrest : lastBinding rest k with
    | some w =>
      have hk : k ∈ rest.map Prod.fst :=
        mem_of_lastBinding_isSome rest k (by rw [hrest]; simp)
      have hpk : ¬ p.1 = k := fun hh => hnd1 (hh ▸ hk)
      simp [hpk, ← ih hnd2, hrest]
    | none =>
      by_cases hpk : p.1 = k
      · simp [hpk]
      · simp [hpk, ← ih hnd2, hrest]

/-- Keys of `dictInsert` are the old keys, with the inserted key appended
when fresh. -/
theorem keys_dictInsert {α : Type} (d : PyDict α) (a : String) (b : α) :
    (dictInsert d a b).map Prod.fst
      = if d.any (fun p => p.1 = a) then d.map Prod.fst else d.map Prod.fst ++ [a] := by
  unfold dictInsert
  by_cases hany : d.any (fun p => p.1 = a) = true
  · rw [if_pos hany, if_pos hany, List.map_map]
    refine List.map_congr_left ?_
    intro p hp
    by_cases hpa : p.1 = a
    · simp [hpa]
    · simp [hpa]
  · rw [if_neg hany, if_neg hany]
    simp

/-- Dicts built by successive insertions have pairwise-distinct keys. -/
theorem dictOfPairs_keys_nodup {α : Type} (ps : List (String × α)) :
    ((dictOfPairs ps).map Prod.fst).Nodup := by
  suffices h : ∀ acc : PyDict α, (acc.map Prod.fst).Nodup →
      ((ps.foldl (fun d p => dictInsert d p.1 p.2) acc).map Prod.fst).Nodup by
    exact h [] (by simp)
  induction ps with
  | nil =>
    intro acc hacc
    simpa using hacc
  | cons p rest ih =>
    intro acc hacc
    rw [List.foldl_cons]
    refine ih (dictInsert acc p.1 p.2) ?_
    rw [keys_dictInsert]
    by_cases hany : acc.any (fun q => q.1 = p.1) = true
    · rw [if_pos hany]
      exact hacc
    · rw [if_neg hany]
      rw [List.nodup_append]
      refine ⟨hacc, List.nodup_singleton _, ?_⟩
      intro x hx hx1
      rw [List.mem_singleton] at hx1
      subst hx1
      obtain ⟨q, hq, hq1⟩ := List.mem_map.mp hx
      exact hany (List.any_eq_true.mpr ⟨q, hq, by simp [hq1]⟩)

/-- Lookup into a freshly-built dict, phrased on last bindings. -/
theorem lastBinding_dictOfPairs {α : Type} (ps : List (String × α)) (k : String) :
    lastBinding (dictOfPairs ps) k = lastBinding ps k := by
  rw [lastBinding_eq_dlookup _ k (dictOfPairs_keys_nodup ps), dlookup_dictOfPairs]

/-! ### Claim C7 -/

/-- The fixed key tuple `node_attr_keys` of `RundeckNode.serialize`, with
the `tags` key the code appends afterwards. -/
def nodeAttrKeys : List String :=
  ["name", "hostname", "username", "description", "osArch", "osFamily",
    "osName", "editUrl", "remoteUrl", "tags"]

theorem optEntry_keys_sublist (k : String) (v : Option String) :
    ((optEntry k v).map Prod.fst).Sublist [k] := by
  cases v <;> simp [optEntry]

theorem tagsEntry_keys_sublist (v : Option (List String)) :
    ((tagsEntry v).map Prod.fst).Sublist ["tags"] := by
  cases v <;> simp [tagsEntry]

/-- The serialized data dict only uses keys from the fixed tuple, each at
most once. -/
theorem dataDict_keys_sublist (n : RundeckNode) :
    ((n.dataDict).map Prod.fst).Sublist nodeAttrKeys := by
  have h :=
    ((((((((List.Sublist.refl ["name", "hostname", "username"]).append
      (optEntry_keys_sublist "description" n.description)).append
      (optEntry_keys_sublist "osArch" n.osArch)).append
      (optEntry_keys_sublist "osFamily" n.osFamily)).append
      (optEntry_keys_sublist "osName" n.osName)).append
      (optEntry_keys_sublist "editUrl" n.editUrl)).append
      (optEntry_keys_sublist "remoteUrl" n.remoteUrl)).append
      (tagsEntry_keys_sublist n.tags))
  simpa [RundeckNode.dataDict, nodeAttrKeys, List.map_append] using h

theorem dataDict_keys_nodup (n : RundeckNode) :
    ((n.dataDict).map Prod.fst).Nodup :=
  List.Nodup.sublist (dataDict_keys_sublist n) (by decide)

/-- Two nodes that differ only in the custom `attributes` field. -/
def nodeWithCustomAttrs : RundeckNode :=
  ⟨"host1", "hostname1", "user1", none, none, none, none, none, none, none,
    some [("foo", "bar")]⟩

def nodeNoCustomAttrs : RundeckNode :=
  ⟨"host1", "hostname1", "user1", none, none, none, none, none, none, none, none⟩

/-- C7 counterexample.  The claim says extracting a node mapping back from
the serialized fragment (the way `project_resources` does, via the
attribute extractor) recovers the custom attribute children.  It cannot:
the extractor reads only XML attributes, so two nodes differing exactly in
their custom `attributes` serialize to fragments with identical attribute
mappings (the `foo` attribute is nowhere in the extracted record), and
`project_resources` maps their fragments to the same value. -/
theorem C7_counterexample :
    attr2dict nodeWithCustomAttrs.serializeEl = attr2dict nodeNoCustomAttrs.serializeEl
    ∧ dlookup (attr2dict nodeWithCustomAttrs.serializeEl) "foo" = none
    ∧ projectResourcesTransform (XNode.mk "project" [] none
        [nodeWithCustomAttrs.serializeEl])
      = projectResourcesTransform (XNode.mk "project" [] none
        [nodeNoCustomAttrs.serializeEl])
    ∧ nodeWithCustomAttrs ≠ nodeNoCustomAttrs := by
  exact ⟨rfl, rfl, rfl, by decide⟩

/-- C7 (amended): serializing a node emits the declared present fields as
XML attributes (the attribute extractor recovers exactly the `data` dict,
so the declared attribute set round-trips) and one `<attribute>` child per
custom attribute; the custom attribute children, however, are dropped by
the attributesOf-based extraction — the extracted mapping is independent of
the `attributes` field. -/
theorem C7_serialize_extract (n : RundeckNode) :
    attr2dict n.serializeEl = n.dataDict
    ∧ (n.serializeEl).children = attributeChildren n.attributes
    ∧ ∀ a : Option (PyDict String),
        attr2dict (RundeckNode.mk n.name n.hostname n.username n.description n.osArch
          n.osFamily n.osName n.tags n.editUrl n.remoteUrl a).serializeEl
          = attr2dict n.serializeEl := by
  have hsame : attr2dict n.serializeEl = n.dataDict := by
    show dictOfPairs n.dataDict = n.dataDict
    exact dictOfPairs_eq_self n.dataDict (dataDict_keys_nodup n)
  refine ⟨hsame, rfl, ?_⟩
  intro a
  rw [hsame]
  show dictOfPairs n.dataDict = n.dataDict
  exact dictOfPairs_eq_self n.dataDict (dataDict_keys_nodup n)

/-! ### Claim C8 -/

/-- C8: the extraction helpers are pure functions of the node value —
in this embedding they take the node and return only a mapping, leaving
the tree untouched, so calling either twice trivially yields identical
mappings — and their lookup structure is fully described by last bindings:
for `childTextOf` a repeated tag keeps only the last occurrence's text
(third conjunct: appending a final child always wins for its tag), while
`attributesOf` carries exactly the attribute list's bindings. -/
theorem C8_extraction_helpers (el : XNode) (k : String) :
    dlookup (child2dict el) k
      = lastBinding (el.children.map (fun c => (c.tag, c.text))) k
    ∧ dlookup (attr2dict el) k = lastBinding el.attrib k
    ∧ ∀ (t : String) (a : List (String × String)) (x : Option String)
        (cs : List XNode) (c : XNode),
        dlookup (child2dict (XNode.mk t a x (cs ++ [c]))) c.tag = some c.text := by
  refine ⟨dlookup_dictOfPairs _ k, dlookup_dictOfPairs _ k, ?_⟩
  intro t a x cs c
  unfold child2dict
  rw [dlookup_dictOfPairs]
  show lastBinding ((cs ++ [c]).map (fun d => (d.tag, d.text))) c.tag = some c.text
  rw [List.map_append, lastBinding_append]
  simp [lastBinding]

/-! ### Claim C9 -/

/-- C9: an operation declaring a minimum protocol version fails with the
version-mismatch `NotImplementedError` when the configured version is
lower, and passes untouched otherwise; in particular the `executions`
endpoint (minimum version 5) raises before issuing any HTTP request, and
with a sufficient version performs exactly its HTTP request. -/
theorem C9_version_check (api_version required_version : Nat) :
    (api_version < required_version →
      api_version_check api_version required_version
        = some ("Call requires API version " ++ toString required_version ++ " or higher"))
    ∧ (required_version ≤ api_version →
      api_version_check api_version required_version = none)
    ∧ (api_version < 5 →
      executionsEndpoint api_version = ([], some "Call requires API version 5 or higher"))
    ∧ (5 ≤ api_version →
      executionsEndpoint api_version = ([HttpEffect.request "get" "executions"], none)) := by
  refine ⟨?_, ?_, ?_, ?_⟩
  · intro h
    simp [api_version_check, h]
  · intro h
    simp [api_version_check, Nat.not_lt.mpr h]
  · intro h
    simp [executionsEndpoint, api_version_check, h]
    rfl
  · intro h
    simp [executionsEndpoint, api_version_check, Nat.not_lt.mpr h]

/-- C9 witness: a client configured for version 3 has the executions query
rejected without any HTTP effect, while version 11 passes the check and
issues the request. -/
theorem C9_witness :
    executionsEndpoint 3 = ([], some "Call requires API version 5 or higher")
    ∧ executionsEndpoint 11 = ([HttpEffect.request "get" "executions"], none)
    ∧ api_version_check 11 5 = none := by
  refine ⟨?_, ?_, ?_⟩
  · exact (C9_version_check 3 5).2.2.1 (by decide)
  · exact (C9_version_check 11 5).2.2.2 (by decide)
  · exact (C9_version_check 11 5).2.1 (by decide)

/-! ### Claim C10 -/

/-- Field preservation through the in-place date fix-up. -/
theorem dateFix_preserves (d : PyDict TVal) (key k : String) (d' : PyDict TVal)
    (hne : key ≠ k) (h : dateFix d key = Except.ok d') :
    dlookup d' k = dlookup d k := by
  cases hl : dlookup d key with
  | none =>
    simp only [dateFix, hl] at h
    cases h
    rfl
  | some tv =>
    cases tv with
    | txt v =>
      cases v with
      | none =>
        simp only [dateFix, hl] at h
        cases h
      | some s =>
        simp only [dateFix, hl] at h
        cases hp : parseDatetime s with
        | none => rw [hp] at h; cases h
        | some dt =>
          rw [hp] at h
          cases h
          rw [dlookup_dictInsert]
          rw [if_neg hne]
    | date dt =>
      simp only [dateFix, hl] at h
      cases h
    | nested m =>
      simp only [dateFix, hl] at h
      cases h

/-- C10: in the per-execution flattening, child text is laid down first and
the element's attributes are overlaid on top, so for a name carried both as
an attribute and as a direct child element the attribute value wins in the
resulting record; `node2dict`, used elsewhere, has the opposite precedence
— the child text wins there. -/
theorem C10_attribute_precedence (el : XNode) (k : String) (v : String) (t : Option String)
    (hattr : lastBinding el.attrib k = some v)
    (hchild : lastBinding (el.children.map (fun c => (c.tag, c.text))) k = some t)
    (hk1 : k ≠ "job") (hk2 : k ≠ "date-started") (hk3 : k ≠ "date-ended") :
    (∀ d, xformExecution el = Except.ok d → dlookup d k = some (TVal.txt (some v)))
    ∧ dlookup (node2dict el) k = some t := by
  constructor
  · intro d hd
    have hattr' :
        lastBinding (el.attrib.map (fun p => (p.1, TVal.txt (some p.2)))) k
          = some (TVal.txt (some v)) := by
      rw [lastBinding_map_val el.attrib (fun w => TVal.txt (some w)) k, hattr]
      rfl
    have hdata0 :
        dlookup (pyUpdate
          (dictOfPairs (el.children.map (fun c => (c.tag, TVal.txt c.text))))
          (el.attrib.map (fun p => (p.1, TVal.txt (some p.2))))) k
          = some (TVal.txt (some v)) := by
      rw [dlookup_pyUpdate, hattr']
    simp only [xformExecution] at hd
    cases hjob : el.find "job" with
    | some jobEl =>
      rw [hjob] at hd
      cases hfix1 : dateFix (dictInsert
          (pyUpdate (dictOfPairs (el.children.map (fun c => (c.tag, TVal.txt c.text))))
            (el.attrib.map (fun p => (p.1, TVal.txt (some p.2)))))
          "job" (TVal.nested (node2dict jobEl))) "date-started" with
      | error e => rw [hfix1] at hd; cases hd
      | ok d2 =>
        rw [hfix1] at hd
        rw [dateFix_preserves d2 "date-ended" k d (fun hh => hk3 hh.symm) hd,
          dateFix_preserves _ "date-started" k d2 (fun hh => hk2 hh.symm) hfix1,
          dlookup_dictInsert, if_neg (fun hh => hk1 hh.symm), hdata0]
    | none =>
      rw [hjob] at hd
      cases hfix1 : dateFix
          (pyUpdate (dictOfPairs (el.children.map (fun c => (c.tag, TVal.txt c.text))))
            (el.attrib.map (fun p => (p.1, TVal.txt (some p.2))))) "date-started" with
      | error e => rw [hfix1] at hd; cases hd
      | ok d2 =>
        rw [hfix1] at hd
        rw [dateFix_preserves d2 "date-ended" k d (fun hh => hk3 hh.symm) hd,
          dateFix_preserves _ "date-started" k d2 (fun hh => hk2 hh.symm) hfix1,
          hdata0]
  · unfold node2dict
    rw [dlookup_dictOfPairs, lastBinding_append]
    have hc : lastBinding (child2dict el) k = some t := by
      unfold child2dict
      rw [lastBinding_dictOfPairs]
      exact hchild
    rw [hc]

/-- A concrete execution element carrying `status` both as an attribute and
as a child element with different values. -/
def execElClash : XNode :=
  XNode.mk "execution" [("status", "attrwins"), ("id", "1")] none
    [XNode.mk "status" [] (some "childtext") []]

/-- C10 witness: on the clashing fixture the flattened execution record
carries the attribute value for `status`, while `node2dict` on the same
element carries the child text. -/
theorem C10_witness :
    dlookup [("status", TVal.txt (some "attrwins")), ("id", TVal.txt (some "1"))] "status"
      = some (TVal.txt (some "attrwins"))
    ∧ dlookup (node2dict execElClash) "status" = some (some "childtext") := by
  constructor
  · exact (C10_attribute_precedence execElClash "status" "attrwins" (some "childtext")
      (by rfl) (by rfl) (by decide) (by decide) (by decide)).1
      [("status", TVal.txt (some "attrwins")), ("id", TVal.txt (some "1"))] (by rfl)
  · exact (C10_attribute_precedence execElClash "status" "attrwins" (some "childtext")
      (by rfl) (by rfl) (by decide) (by decide) (by decide)).2

end Rundeck
